import Mathlib

/-!
Verification of the MevTracker execution-state coordinator
(`MevExecutionManager` and the routes built on it, src/server/routes.ts),
shallowly embedded in Lean.

Modelling conventions:
* JavaScript numbers are modelled as exact rationals (`ℚ`); the arithmetic the
  claims speak about is addition, comparison and division on small decimal
  values, where IEEE doubles and rationals agree on the control flow at issue.
* `Date` timestamps are abstract `ℕ` ticks supplied by the caller.
* `Math.random()` draws are supplied as explicit parameters or pre-drawn
  streams, so every function is a pure state transformer.
* Fallible boundary operations return explicit result values; none of the
  embedded operations can throw.
-/

/-- Execution state of the `MevExecutionManager` class
(src/server/routes.ts lines 24-29): `isRunning`, `profit`, `transactions`,
`startTime`, `targetProfit` (default 20). -/
structure MevExecutionManager where
  isRunning : Bool
  profit : ℚ
  transactions : ℕ
  startTime : Option ℕ
  targetProfit : ℚ
deriving DecidableEq

/-- The singleton manager's initial state: `isRunning = false`, `profit = 0`,
`transactions = 0`, no `startTime`, `targetProfit = 20` (the £20 default). -/
def initialManager : MevExecutionManager :=
  { isRunning := false, profit := 0, transactions := 0, startTime := none, targetProfit := 20 }

/-- JavaScript truthiness of a number: nonzero numbers are truthy.
(`NaN` is also falsy but has no rational counterpart.) -/
def truthyNum (q : ℚ) : Bool := q != 0

/-- Result of `startExecution` as seen by the caller: the `success` flag and,
on success, the `startTime` echoed back.  The `message` strings carry no state
and are omitted. -/
structure StartResult where
  success : Bool
  startTime : Option ℕ
deriving DecidableEq

/-- `MevExecutionManager.startExecution(targetProfit?)`
(src/server/routes.ts lines 31-46).  If already running it returns a failure
result and changes nothing.  Otherwise it sets `isRunning := true`, resets
`profit` and `transactions` to 0, records `startTime := now`, and overwrites
`targetProfit` only when the optional argument is present and truthy
(`if (targetProfit) this.targetProfit = targetProfit`). -/
def startExecution (s : MevExecutionManager) (targetProfit : Option ℚ) (now : ℕ) :
    MevExecutionManager × StartResult :=
  if s.isRunning then (s, { success := false, startTime := none })
  else
    let s1 : MevExecutionManager :=
      { s with isRunning := true, profit := 0, transactions := 0, startTime := some now }
    let s2 : MevExecutionManager :=
      match targetProfit with
      | some t => if truthyNum t then { s1 with targetProfit := t } else s1
      | none => s1
    (s2, { success := true, startTime := some now })

/-- Result of `stopExecution`: just the `success` flag (the success branch also
returns a stats snapshot, which is derived read-only data). -/
structure StopResult where
  success : Bool
deriving DecidableEq

/-- `MevExecutionManager.stopExecution()` (src/server/routes.ts lines 48-58).
Fails without side effects when not running; otherwise clears `isRunning`. -/
def stopExecution (s : MevExecutionManager) : MevExecutionManager × StopResult :=
  if !s.isRunning then (s, { success := false })
  else ({ s with isRunning := false }, { success := true })

/-- Result of `recordProfit`: always `success`, plus the target-reached flag and
the updated totals echoed back. -/
structure RecordResult where
  success : Bool
  targetReached : Bool
  currentProfit : ℚ
  transactions : ℕ
deriving DecidableEq

/-- `MevExecutionManager.recordProfit(amount)` (src/server/routes.ts lines
60-75).  Adds `amount` to `profit`, increments `transactions`, then evaluates
`targetReached = profit >= targetProfit` on the updated profit and clears
`isRunning` in the same update when the target is reached. -/
def recordProfit (s : MevExecutionManager) (amount : ℚ) :
    MevExecutionManager × RecordResult :=
  let profit := s.profit + amount
  let transactions := s.transactions + 1
  let targetReached : Bool := decide (s.targetProfit ≤ profit)
  let s1 : MevExecutionManager :=
    { s with profit := profit, transactions := transactions,
             isRunning := if targetReached then false else s.isRunning }
  (s1, { success := true, targetReached := targetReached, currentProfit := profit,
         transactions := transactions })

/-- Snapshot returned by `getStats` (src/server/routes.ts lines 77-86). -/
structure MevStats where
  isRunning : Bool
  profit : ℚ
  transactions : ℕ
  startTime : Option ℕ
  targetProfit : ℚ
  percentComplete : ℚ
deriving DecidableEq

/-- `MevExecutionManager.getStats()` (src/server/routes.ts lines 77-86):
a pure read returning the fields plus
`percentComplete = targetProfit > 0 ? (profit / targetProfit) * 100 : 0`. -/
def getStats (s : MevExecutionManager) : MevStats :=
  { isRunning := s.isRunning, profit := s.profit, transactions := s.transactions,
    startTime := s.startTime, targetProfit := s.targetProfit,
    percentComplete := if 0 < s.targetProfit then s.profit / s.targetProfit * 100 else 0 }

/-- One call on the manager's boundary: the four operations reachable through
the `/api/mev/*` routes. -/
inductive MevCall where
  | start (targetProfit : Option ℚ) (now : ℕ)
  | stop
  | record (amount : ℚ)
  | stats
deriving DecidableEq

/-- The state transition performed by one boundary call (`getStats` is a pure
read and leaves the state unchanged). -/
def applyCall (s : MevExecutionManager) : MevCall → MevExecutionManager
  | .start t now => (startExecution s t now).1
  | .stop => (stopExecution s).1
  | .record a => (recordProfit s a).1
  | .stats => s

/-- The state after a sequence of boundary calls. -/
def runCalls (s : MevExecutionManager) (cs : List MevCall) : MevExecutionManager :=
  cs.foldl applyCall s

/-- A call whose start argument, when present, is nonnegative.  A negative
start argument is the one way to drive `targetProfit` out of the positive
range (0 is falsy in JavaScript and is ignored by `startExecution`). -/
def safeTarget : MevCall → Bool
  | .start (some t) _ => decide (0 ≤ t)
  | _ => true

/-- The coordinator invariant: the target stays positive, and whenever the
accumulated profit has reached the target the coordinator is stopped. -/
def mevInv (s : MevExecutionManager) : Prop :=
  0 < s.targetProfit ∧ (s.targetProfit ≤ s.profit → s.isRunning = false)

theorem startExecution_of_running (s : MevExecutionManager) (t : Option ℚ) (now : ℕ)
    (h : s.isRunning = true) :
    startExecution s t now = (s, { success := false, startTime := none }) := by
  simp [startExecution, h]

theorem startExecution_of_idle (s : MevExecutionManager) (t : Option ℚ) (now : ℕ)
    (h : s.isRunning = false) :
    startExecution s t now =
      ({ isRunning := true, profit := 0, transactions := 0, startTime := some now,
         targetProfit := match t with
           | some q => if truthyNum q then q else s.targetProfit
           | none => s.targetProfit },
       { success := true, startTime := some now }) := by
  cases t with
  | none => simp [startExecution, h]
  | some q => by_cases hq : truthyNum q = true <;> simp [startExecution, h, hq]

theorem stopExecution_of_idle (s : MevExecutionManager) (h : s.isRunning = false) :
    stopExecution s = (s, { success := false }) := by
  simp [stopExecution, h]

theorem stopExecution_of_running (s : MevExecutionManager) (h : s.isRunning = true) :
    stopExecution s = ({ s with isRunning := false }, { success := true }) := by
  simp [stopExecution, h]

theorem recordProfit_fst (s : MevExecutionManager) (a : ℚ) :
    (recordProfit s a).1 =
      { s with profit := s.profit + a, transactions := s.transactions + 1,
               isRunning := if s.targetProfit ≤ s.profit + a then false else s.isRunning } := by
  by_cases h : s.targetProfit ≤ s.profit + a <;> simp [recordProfit, h]

theorem recordProfit_snd (s : MevExecutionManager) (a : ℚ) :
    (recordProfit s a).2 =
      { success := true, targetReached := decide (s.targetProfit ≤ s.profit + a),
        currentProfit := s.profit + a, transactions := s.transactions + 1 } := rfl

theorem mevInv_initial : mevInv initialManager := by
  constructor
  · norm_num [initialManager]
  · intro h
    rfl

theorem mevInv_step (s : MevExecutionManager) (c : MevCall)
    (hinv : mevInv s) (hc : safeTarget c = true) : mevInv (applyCall s c) := by
  obtain ⟨hpos, himp⟩ := hinv
  cases c with
  | start t now =>
    cases hrun : s.isRunning with
    | true =>
      simp only [applyCall, startExecution_of_running s t now hrun]
      exact ⟨hpos, himp⟩
    | false =>
      simp only [applyCall, startExecution_of_idle s t now hrun]
      have htgt : 0 < (match t with
          | some q => if truthyNum q then q else s.targetProfit
          | none => s.targetProfit) := by
        cases t with
        | none => exact hpos
        | some q =>
          by_cases hq : truthyNum q = true
          · have hq0 : q ≠ 0 := by simpa [truthyNum] using hq
            have hqle : 0 ≤ q := by simpa [safeTarget] using hc
            simpa [hq] using lt_of_le_of_ne hqle (Ne.symm hq0)
          · simpa [hq] using hpos
      refine ⟨htgt, ?_⟩
      intro h
      exact absurd (lt_of_lt_of_le htgt h) (lt_irrefl 0)
  | stop =>
    cases hrun : s.isRunning with
    | true =>
      simp only [applyCall, stopExecution_of_running s hrun]
      exact ⟨hpos, fun _ => rfl⟩
    | false =>
      simp only [applyCall, stopExecution_of_idle s hrun]
      exact ⟨hpos, himp⟩
  | record a =>
    simp only [applyCall, recordProfit_fst]
    refine ⟨hpos, ?_⟩
    intro h
    simp only at h
    rw [if_pos h]
  | stats =>
    exact ⟨hpos, himp⟩

theorem mevInv_runCalls (s : MevExecutionManager) (cs : List MevCall)
    (hinv : mevInv s) (hcs : ∀ c ∈ cs, safeTarget c = true) :
    mevInv (runCalls s cs) := by
  induction cs generalizing s with
  | nil => exact hinv
  | cons c rest ih =>
    have h1 : safeTarget c = true := hcs c (List.mem_cons_self c rest)
    have h2 : ∀ d ∈ rest, safeTarget d = true := fun d hd => hcs d (List.mem_cons_of_mem c hd)
    exact ih (applyCall s c) (mevInv_step s c hinv h1) h2

/-- C1: in every state reachable from the initial state through
`startExecution` / `stopExecution` / `recordProfit` / `getStats` calls whose
start targets are nonnegative, `isRunning` is false whenever
`accumulatedProfit >= targetProfit`; and a `recordProfit` call that reports the
target reached clears `isRunning` in that same update.  (The nonnegativity
restriction is forced: see the counterexample with a negative start target.) -/
theorem C1_target_reached_auto_stop (cs : List MevCall)
    (h : ∀ c ∈ cs, safeTarget c = true) :
    ((runCalls initialManager cs).targetProfit ≤ (runCalls initialManager cs).profit →
      (runCalls initialManager cs).isRunning = false)
    ∧ (∀ s : MevExecutionManager, ∀ a : ℚ,
        (recordProfit s a).2.targetReached = true →
        (recordProfit s a).1.isRunning = false) := by
  refine ⟨(mevInv_runCalls initialManager cs mevInv_initial h).2, ?_⟩
  intro s a hreach
  rw [recordProfit_snd] at hreach
  simp only [decide_eq_true_eq] at hreach
  rw [recordProfit_fst]
  simp only
  rw [if_pos hreach]

/-- C1 fails as literally stated (over all call sequences): starting with the
negative target -5 is accepted and yields a reachable state with
`isRunning = true` while `accumulatedProfit = 0 >= -5 = targetProfit`. -/
theorem C1_counterexample :
    (runCalls initialManager [MevCall.start (some (-5)) 0]).isRunning = true
    ∧ (runCalls initialManager [MevCall.start (some (-5)) 0]).targetProfit ≤
        (runCalls initialManager [MevCall.start (some (-5)) 0]).profit := by
  constructor <;>
    norm_num [runCalls, applyCall, startExecution, initialManager, truthyNum]

/-- Concrete call sequence for the C1 witness: start with target 30, then a
single recorded profit of 35 reaches the target. -/
def c1Calls : List MevCall := [MevCall.start (some 30) 0, MevCall.record 35]

theorem C1_target_reached_auto_stop_witness :
    (runCalls initialManager c1Calls).isRunning = false :=
  (C1_target_reached_auto_stop c1Calls
    (by
      intro c hc
      simp only [c1Calls] at hc
      fin_cases hc <;> norm_num [safeTarget])).1
    (by norm_num [c1Calls, runCalls, applyCall, startExecution, recordProfit,
          initialManager, truthyNum])

/-- C2: `startExecution` while running and `stopExecution` while idle both
return a non-success result and leave every field of the execution state
unchanged (the whole record is equal); both are total functions, so neither
failing call can throw. -/
theorem C2_failed_calls_leave_state_unchanged (s : MevExecutionManager)
    (t : Option ℚ) (now : ℕ) :
    (s.isRunning = true →
      (startExecution s t now).2.success = false ∧ (startExecution s t now).1 = s)
    ∧ (s.isRunning = false →
      (stopExecution s).2.success = false ∧ (stopExecution s).1 = s) := by
  constructor
  · intro h
    rw [startExecution_of_running s t now h]
    exact ⟨rfl, rfl⟩
  · intro h
    rw [stopExecution_of_idle s h]
    exact ⟨rfl, rfl⟩

/-- A manager in the middle of a run, used to witness C2. -/
def c2Running : MevExecutionManager :=
  { isRunning := true, profit := 5, transactions := 2, startTime := some 7, targetProfit := 20 }

theorem C2_failed_calls_witness :
    ((startExecution c2Running (some 50) 3).2.success = false
      ∧ (startExecution c2Running (some 50) 3).1 = c2Running)
    ∧ ((stopExecution initialManager).2.success = false
      ∧ (stopExecution initialManager).1 = initialManager) :=
  ⟨(C2_failed_calls_leave_state_unchanged c2Running (some 50) 3).1 rfl,
   (C2_failed_calls_leave_state_unchanged initialManager (some 50) 3).2 rfl⟩

/-- C3 (code bug): `startExecution` performs no validation of the target.
`startExecution(-1)` is accepted (`success = true`), installs the negative
target, and produces a running state whose profit already meets the target —
an instantly-complete run.  `startExecution(0)` is also not rejected: 0 is
falsy in JavaScript, so the call succeeds and silently keeps the previous
target (20). -/
theorem C3_no_target_validation :
    ((startExecution initialManager (some (-1)) 0).2.success = true
      ∧ (startExecution initialManager (some (-1)) 0).1.isRunning = true
      ∧ (startExecution initialManager (some (-1)) 0).1.targetProfit = -1
      ∧ (startExecution initialManager (some (-1)) 0).1.targetProfit ≤
          (startExecution initialManager (some (-1)) 0).1.profit)
    ∧ ((startExecution initialManager (some 0) 5).2.success = true
      ∧ (startExecution initialManager (some 0) 5).1.targetProfit = 20) := by
  norm_num [startExecution, initialManager, truthyNum]

/-- C4 (amended): `percentComplete` equals `profit / targetProfit * 100` when
`targetProfit > 0` and equals 0 whenever `targetProfit <= 0` (in particular
when it is 0); `getStats` copies every stored field unchanged and the status
route performs no state change. -/
theorem C4_percent_complete (s : MevExecutionManager) :
    (0 < s.targetProfit →
      (getStats s).percentComplete = s.profit / s.targetProfit * 100)
    ∧ (s.targetProfit ≤ 0 → (getStats s).percentComplete = 0)
    ∧ (getStats s).isRunning = s.isRunning
    ∧ (getStats s).profit = s.profit
    ∧ (getStats s).transactions = s.transactions
    ∧ (getStats s).startTime = s.startTime
    ∧ (getStats s).targetProfit = s.targetProfit
    ∧ applyCall s MevCall.stats = s := by
  refine ⟨?_, ?_, rfl, rfl, rfl, rfl, rfl, rfl⟩
  · intro h
    simp only [getStats]
    rw [if_pos h]
  · intro h
    simp only [getStats]
    rw [if_neg (not_lt.mpr h)]

/-- Reachable state with a negative target and positive profit, used to refute
C4 as literally stated. -/
def c4State : MevExecutionManager :=
  runCalls initialManager [MevCall.start (some (-5)) 0, MevCall.record 3]

/-- C4 counterexample: in the reachable state with `profit = 3` and
`targetProfit = -5`, `getStats` reports `percentComplete = 0`, not the claimed
`100 * profit / targetProfit = -60` (the code tests `targetProfit > 0`, not
`targetProfit != 0`). -/
theorem C4_counterexample :
    (getStats c4State).percentComplete = 0
    ∧ 100 * c4State.profit / c4State.targetProfit = -60
    ∧ c4State.targetProfit = -5 ∧ c4State.profit = 3 := by
  norm_num [c4State, runCalls, applyCall, startExecution, recordProfit, getStats,
    initialManager, truthyNum]

/-- An idle manager whose target is 0, used to witness C4's zero-target case. -/
def c4ZeroTarget : MevExecutionManager := { initialManager with targetProfit := 0 }

theorem C4_percent_complete_witness :
    (getStats initialManager).percentComplete =
      initialManager.profit / initialManager.targetProfit * 100
    ∧ (getStats c4ZeroTarget).percentComplete = 0 :=
  ⟨(C4_percent_complete initialManager).1 (by norm_num [initialManager]),
   (C4_percent_complete c4ZeroTarget).2.1 (by norm_num [c4ZeroTarget, initialManager])⟩

/-- Repeated `recordProfit` calls, folded left over the list of amounts, as the
execution loop performs them. -/
def recordMany (s : MevExecutionManager) (amounts : List ℚ) : MevExecutionManager :=
  amounts.foldl (fun st a => (recordProfit st a).1) s

theorem recordMany_fields (s : MevExecutionManager) (amounts : List ℚ) :
    (recordMany s amounts).profit = s.profit + amounts.sum
    ∧ (recordMany s amounts).transactions = s.transactions + amounts.length := by
  induction amounts generalizing s with
  | nil => simp [recordMany]
  | cons a rest ih =>
    have h := ih (recordProfit s a).1
    simp only [recordMany, List.foldl_cons] at h ⊢
    rw [h.1, h.2, recordProfit_fst]
    constructor
    · simp only [List.sum_cons]
      ring
    · simp only [List.length_cons]
      omega

/-- C6: after a successful `startExecution` the profit and transaction counters
are 0; after `recordProfit(a1) ... recordProfit(an)` the profit equals
`a1 + ... + an` and the transaction count equals `n`; `stopExecution` and the
status read leave both counters untouched, so `recordProfit` and `start` are
the only mutators of the two fields. -/
theorem C6_profit_accumulation (s : MevExecutionManager) (t : Option ℚ) (now : ℕ)
    (amounts : List ℚ) (h : s.isRunning = false) :
    (recordMany (startExecution s t now).1 amounts).profit = amounts.sum
    ∧ (recordMany (startExecution s t now).1 amounts).transactions = amounts.length
    ∧ (startExecution s t now).1.profit = 0
    ∧ (startExecution s t now).1.transactions = 0
    ∧ (startExecution s t now).2.success = true
    ∧ (∀ s2 : MevExecutionManager, (stopExecution s2).1.profit = s2.profit
        ∧ (stopExecution s2).1.transactions = s2.transactions
        ∧ applyCall s2 MevCall.stats = s2) := by
  rw [startExecution_of_idle s t now h]
  refine ⟨?_, ?_, rfl, rfl, rfl, ?_⟩
  · rw [(recordMany_fields _ amounts).1]
    simp
  · rw [(recordMany_fields _ amounts).2]
    simp
  · intro s2
    refine ⟨?_, ?_, rfl⟩ <;> cases h2 : s2.isRunning
    · rw [stopExecution_of_idle s2 h2]
    · rw [stopExecution_of_running s2 h2]
    · rw [stopExecution_of_idle s2 h2]
    · rw [stopExecution_of_running s2 h2]

theorem C6_profit_accumulation_witness :
    (recordMany (startExecution initialManager (some 50) 0).1 [(3 : ℚ), 4, -1]).profit =
      [(3 : ℚ), 4, -1].sum
    ∧ (recordMany (startExecution initialManager (some 50) 0).1 [(3 : ℚ), 4, -1]).transactions =
      [(3 : ℚ), 4, -1].length :=
  ⟨(C6_profit_accumulation initialManager (some 50) 0 [3, 4, -1] rfl).1,
   (C6_profit_accumulation initialManager (some 50) 0 [3, 4, -1] rfl).2.1⟩

/-- C10: `targetProfit` starts at 20 and is changed only by a `startExecution`
call that is accepted and whose argument is truthy (nonzero): an omitted or
zero argument keeps the previous target, a failing start (already running),
`stopExecution` and `recordProfit` never touch it, and a target installed for
one run persists as the default for later runs. -/
theorem C10_target_profit_persistence (s : MevExecutionManager) (t : ℚ) (now : ℕ)
    (hidle : s.isRunning = false) (ht : t ≠ 0) :
    (startExecution s none now).1.targetProfit = s.targetProfit
    ∧ (startExecution s (some 0) now).1.targetProfit = s.targetProfit
    ∧ (startExecution s (some t) now).1.targetProfit = t
    ∧ (∀ s2 : MevExecutionManager, ∀ t2 : Option ℚ, ∀ n2 : ℕ, s2.isRunning = true →
        (startExecution s2 t2 n2).1.targetProfit = s2.targetProfit)
    ∧ (∀ s2 : MevExecutionManager, (stopExecution s2).1.targetProfit = s2.targetProfit)
    ∧ (∀ s2 : MevExecutionManager, ∀ b : ℚ, (recordProfit s2 b).1.targetProfit = s2.targetProfit)
    ∧ initialManager.targetProfit = 20
    ∧ (runCalls initialManager
        [MevCall.start (some 25) 0, MevCall.stop, MevCall.start none 1]).targetProfit = 25 := by
  refine ⟨?_, ?_, ?_, ?_, ?_, ?_, rfl,
    by norm_num [runCalls, applyCall, startExecution, stopExecution, initialManager, truthyNum]⟩
  · rw [startExecution_of_idle s none now hidle]
  · rw [startExecution_of_idle s (some 0) now hidle]
    simp [truthyNum]
  · rw [startExecution_of_idle s (some t) now hidle]
    simp [truthyNum, ht]
  · intro s2 t2 n2 h2
    rw [startExecution_of_running s2 t2 n2 h2]
  · intro s2
    cases h2 : s2.isRunning
    · rw [stopExecution_of_idle s2 h2]
    · rw [stopExecution_of_running s2 h2]
  · intro s2 b
    rw [recordProfit_fst]

theorem C10_target_profit_persistence_witness :
    (startExecution initialManager none 0).1.targetProfit = initialManager.targetProfit
    ∧ (startExecution initialManager (some 25) 0).1.targetProfit = 25
    ∧ (runCalls initialManager
        [MevCall.start (some 25) 0, MevCall.stop, MevCall.start none 1]).targetProfit = 25 :=
  ⟨(C10_target_profit_persistence initialManager 25 0 rfl (by norm_num)).1,
   (C10_target_profit_persistence initialManager 25 0 rfl (by norm_num)).2.2.1,
   (C10_target_profit_persistence initialManager 25 0 rfl (by norm_num)).2.2.2.2.2.2.2⟩

/-- A stored arbitrage opportunity (schema `opportunities`): store-assigned
`id`, strategy `type`, trade-path description `pairs`, estimated profit and gas
cost (stored as decimal strings, parsed back with `parseFloat`; modelled as the
exact rationals they denote) and the `isExecutable` policy flag.  Creation
timestamps (`identified`, and `timestamp` on the records below) are opaque
dates never read by the coordinator and are omitted. -/
structure Opportunity where
  id : ℕ
  type : String
  pairs : String
  estimatedProfitEth : ℚ
  estimatedGasCostEth : ℚ
  isExecutable : Bool
deriving DecidableEq

/-- The ranking key of the selection step:
`parseFloat(estimatedProfitEth) - parseFloat(estimatedGasCostEth)`. -/
def oppNet (o : Opportunity) : ℚ := o.estimatedProfitEth - o.estimatedGasCostEth

/-- Stable insertion for a descending-by-net sort: the inserted element goes in
front of the first element whose net does not exceed it, so among equal nets an
element inserted later (originally earlier in the input) stays in front. -/
def insertByNetDesc (o : Opportunity) : List Opportunity → List Opportunity
  | [] => [o]
  | b :: rest => if oppNet b ≤ oppNet o then o :: b :: rest else b :: insertByNetDesc o rest

/-- The sort `opps.sort((a, b) => netB - netA)` of the selection step
(src/server/routes.ts lines 186-190 and src/client/src/lib/mev-executor.ts
lines 174-178): `Array.prototype.sort` is stable (ES2019), yielding a
descending-by-net order that keeps equal-net elements in input order; embedded
as a stable insertion sort with exactly that specification. -/
def sortByNetDesc : List Opportunity → List Opportunity
  | [] => []
  | o :: rest => insertByNetDesc o (sortByNetDesc rest)

/-- `selectBestOpportunity` (mev-executor.ts lines 170-182) and the `bestOpp`
computation of the server loop (routes.ts lines 184-190): the first element
(`sorted[0]`) of the stable descending-by-net sort, `null`/absent on an empty
list. -/
def selectBestOpportunity (l : List Opportunity) : Option Opportunity :=
  (sortByNetDesc l).head?

/-- The selection rule as the spec words it: the first element of the input
attaining the maximal net. -/
def firstMaxByNet : List Opportunity → Option Opportunity
  | [] => none
  | o :: rest =>
    match firstMaxByNet rest with
    | none => some o
    | some b => if oppNet o < oppNet b then some b else some o

theorem insertByNetDesc_head (o : Opportunity) (l : List Opportunity) :
    (insertByNetDesc o l).head? =
      match l.head? with
      | none => some o
      | some b => if oppNet b ≤ oppNet o then some o else some b := by
  cases l with
  | nil => rfl
  | cons b rest =>
    by_cases h : oppNet b ≤ oppNet o <;> simp [insertByNetDesc, h]

theorem sortByNetDesc_head (l : List Opportunity) :
    (sortByNetDesc l).head? = firstMaxByNet l := by
  induction l with
  | nil => rfl
  | cons o rest ih =>
    rw [sortByNetDesc, insertByNetDesc_head, ih]
    cases h : firstMaxByNet rest with
    | none => simp [firstMaxByNet, h]
    | some b =>
      by_cases hbo : oppNet b ≤ oppNet o
      · simp [firstMaxByNet, h, hbo, not_lt.mpr hbo]
      · simp [firstMaxByNet, h, hbo, not_le.mp hbo]

theorem firstMaxByNet_is_first_max (l : List Opportunity) (h : l ≠ []) :
    ∃ i o, l.get? i = some o ∧ firstMaxByNet l = some o
      ∧ (∀ j x, l.get? j = some x → oppNet x ≤ oppNet o)
      ∧ (∀ j x, j < i → l.get? j = some x → oppNet x < oppNet o) := by
  induction l with
  | nil => exact absurd rfl h
  | cons a rest ih =>
    cases rest with
    | nil =>
      refine ⟨0, a, rfl, rfl, ?_, ?_⟩
      · intro j x hx
        cases j with
        | zero =>
          simp only [List.get?_cons_zero, Option.some.injEq] at hx
          subst hx
          exact le_refl _
        | succ n => simp at hx
      · intro j x hj hx
        omega
    | cons c m =>
      obtain ⟨i, b, hget, hfm, hmax, hfirst⟩ := ih (by simp)
      by_cases hab : oppNet a < oppNet b
      · refine ⟨i + 1, b, ?_, ?_, ?_, ?_⟩
        · simpa using hget
        · rw [firstMaxByNet, hfm]
          simp [hab]
        · intro j x hx
          cases j with
          | zero =>
            simp only [List.get?_cons_zero, Option.some.injEq] at hx
            subst hx
            exact le_of_lt hab
          | succ n => exact hmax n x (by simpa using hx)
        · intro j x hj hx
          cases j with
          | zero =>
            simp only [List.get?_cons_zero, Option.some.injEq] at hx
            subst hx
            exact hab
          | succ n => exact hfirst n x (by omega) (by simpa using hx)
      · refine ⟨0, a, rfl, ?_, ?_, ?_⟩
        · rw [firstMaxByNet, hfm]
          simp [hab]
        · intro j x hx
          cases j with
          | zero =>
            simp only [List.get?_cons_zero, Option.some.injEq] at hx
            subst hx
            exact le_refl _
          | succ n =>
            exact le_trans (hmax n x (by simpa using hx)) (not_lt.mp hab)
        · intro j x hj hx
          omega

/-- Four executable opportunities whose nets are 5, 9, 9 and 2 in input order,
realising the spec's tie-break example. -/
def c5Opps : List Opportunity :=
  [ { id := 1, type := "Triangular", pairs := "ETH → USDC → WBTC → ETH",
      estimatedProfitEth := 6, estimatedGasCostEth := 1, isExecutable := true },
    { id := 2, type := "DEX", pairs := "USDT(Uniswap) → USDT(SushiSwap)",
      estimatedProfitEth := 10, estimatedGasCostEth := 1, isExecutable := true },
    { id := 3, type := "Flash Loan", pairs := "AAVE → Uniswap → Compound",
      estimatedProfitEth := 11, estimatedGasCostEth := 2, isExecutable := true },
    { id := 4, type := "Triangular", pairs := "ETH → DAI → USDT → ETH",
      estimatedProfitEth := 3, estimatedGasCostEth := 1, isExecutable := true } ]

/-- C5: on every non-empty list the selection step (stable sort by net
descending, take the head) returns an element of the list whose net is maximal
and which precedes every strictly earlier-indexed element of equal net — the
first maximum in input order; on the nets [5, 9, 9, 2] example it returns the
element at index 1. -/
theorem C5_selection_returns_first_max (l : List Opportunity) (h : l ≠ []) :
    (∃ i o, l.get? i = some o ∧ selectBestOpportunity l = some o
      ∧ (∀ j x, l.get? j = some x → oppNet x ≤ oppNet o)
      ∧ (∀ j x, j < i → l.get? j = some x → oppNet x < oppNet o))
    ∧ selectBestOpportunity c5Opps = c5Opps.get? 1 := by
  constructor
  · obtain ⟨i, o, h1, h2, h3, h4⟩ := firstMaxByNet_is_first_max l h
    refine ⟨i, o, h1, ?_, h3, h4⟩
    rw [selectBestOpportunity, sortByNetDesc_head]
    exact h2
  · norm_num [c5Opps, selectBestOpportunity, sortByNetDesc, insertByNetDesc, oppNet]

theorem C5_selection_returns_first_max_witness :
    selectBestOpportunity c5Opps = c5Opps.get? 1 :=
  (C5_selection_returns_first_max c5Opps (by simp [c5Opps])).2

/-- Insertion shape of an opportunity: the fields a caller supplies; the store
assigns the `id`. -/
structure InsertOpportunity where
  type : String
  pairs : String
  estimatedProfitEth : ℚ
  estimatedGasCostEth : ℚ
  isExecutable : Bool
deriving DecidableEq

/-- An executed-transaction record (schema `transactions`). -/
structure Transaction where
  id : ℕ
  txHash : String
  type : String
  pairs : String
  profitEth : ℚ
  gasCostEth : ℚ
  status : String
deriving DecidableEq

/-- Insertion shape of a transaction; the store assigns the `id`. -/
structure InsertTransaction where
  txHash : String
  type : String
  pairs : String
  profitEth : ℚ
  gasCostEth : ℚ
  status : String
deriving DecidableEq

/-- A mempool log line (schema `mempoolActivity`). -/
structure MempoolActivity where
  id : ℕ
  message : String
  type : String
deriving DecidableEq

/-- Insertion shape of a mempool log line. -/
structure InsertMempoolActivity where
  message : String
  type : String
deriving DecidableEq

/-- The persistent store as the coordinator consumes it (the `IStorage`
contract, realised by src/server/storage.ts `MemStorage` and the equivalent
database-backed class): opportunities in insertion (push) order, transactions
and mempool activity newest-first (unshift), plus the id counters. -/
structure Store where
  opportunities : List Opportunity
  transactions : List Transaction
  mempoolActivity : List MempoolActivity
  nextOpportunityId : ℕ
  nextTransactionId : ℕ
  nextMempoolActivityId : ℕ
deriving DecidableEq

/-- `storage.addTransaction`: assigns the next id and prepends the record. -/
def addTransaction (st : Store) (t : InsertTransaction) : Store × Transaction :=
  let tx : Transaction :=
    { id := st.nextTransactionId, txHash := t.txHash, type := t.type, pairs := t.pairs,
      profitEth := t.profitEth, gasCostEth := t.gasCostEth, status := t.status }
  ({ st with transactions := tx :: st.transactions,
             nextTransactionId := st.nextTransactionId + 1 }, tx)

/-- `storage.addOpportunity`: assigns the next id and appends the record. -/
def addOpportunity (st : Store) (o : InsertOpportunity) : Store × Opportunity :=
  let newOpp : Opportunity :=
    { id := st.nextOpportunityId, type := o.type, pairs := o.pairs,
      estimatedProfitEth := o.estimatedProfitEth, estimatedGasCostEth := o.estimatedGasCostEth,
      isExecutable := o.isExecutable }
  ({ st with opportunities := st.opportunities ++ [newOpp],
             nextOpportunityId := st.nextOpportunityId + 1 }, newOpp)

/-- `storage.deleteOpportunity`: removes every row with the given id and
reports whether anything was removed (`initialLength > newLength`). -/
def deleteOpportunity (st : Store) (id : ℕ) : Store × Bool :=
  let remaining := st.opportunities.filter (fun o => o.id != id)
  ({ st with opportunities := remaining },
   decide (remaining.length < st.opportunities.length))

/-- `storage.addMempoolActivity`: assigns the next id and prepends the line. -/
def addMempoolActivity (st : Store) (a : InsertMempoolActivity) : Store × MempoolActivity :=
  let act : MempoolActivity :=
    { id := st.nextMempoolActivityId, message := a.message, type := a.type }
  ({ st with mempoolActivity := act :: st.mempoolActivity,
             nextMempoolActivityId := st.nextMempoolActivityId + 1 }, act)

/-- Outcome of the manual POST /api/execute-opportunity/:id boundary call:
404 NotFound, 400 NotExecutable, or 200 with the recorded transaction. -/
inductive ExecuteOpportunityResult where
  | notFound
  | notExecutable
  | ok (transaction : Transaction)
deriving DecidableEq

/-- Whether the execute-opportunity call succeeded. -/
def ExecuteOpportunityResult.isOk : ExecuteOpportunityResult → Bool
  | .ok _ => true
  | _ => false

/-- First registered handler of POST /api/execute-opportunity/:id
(src/server/routes.ts lines 112-154): looks the opportunity up and — without
any `isExecutable` check — records a Confirmed transaction, deletes the
opportunity and appends an execution log line.  The random transaction hash is
supplied as a parameter. -/
def executeOpportunityFirst (st : Store) (id : ℕ) (txHash : String) :
    Store × ExecuteOpportunityResult :=
  match st.opportunities.find? (fun o => o.id == id) with
  | none => (st, .notFound)
  | some opp =>
    let step1 := addTransaction st
      { txHash := txHash, type := opp.type, pairs := opp.pairs,
        profitEth := opp.estimatedProfitEth, gasCostEth := opp.estimatedGasCostEth,
        status := "Confirmed" }
    let step2 := deleteOpportunity step1.1 id
    let step3 := addMempoolActivity step2.1
      { message := "Executed " ++ opp.type ++ " arbitrage: " ++ opp.pairs ++ " - Profit: "
          ++ toString opp.estimatedProfitEth ++ " ETH", type := "execution" }
    (step3.1, .ok step1.2)

/-- Second registered handler of POST /api/execute-opportunity/:id
(src/server/routes.ts lines 508-548): the same lookup, but it rejects a
non-executable opportunity with a 400 before any side effect.  Express
dispatches each request to the FIRST matching registration, so this handler is
unreachable. -/
def executeOpportunitySecond (st : Store) (id : ℕ) (txHash : String) :
    Store × ExecuteOpportunityResult :=
  match st.opportunities.find? (fun o => o.id == id) with
  | none => (st, .notFound)
  | some opp =>
    if !opp.isExecutable then (st, .notExecutable)
    else
      let step1 := addTransaction st
        { txHash := txHash, type := opp.type, pairs := opp.pairs,
          profitEth := opp.estimatedProfitEth, gasCostEth := opp.estimatedGasCostEth,
          status := "Confirmed" }
      let step2 := deleteOpportunity step1.1 id
      let step3 := addMempoolActivity step2.1
        { message := "Executed " ++ opp.type ++ " arbitrage: " ++ opp.pairs,
          type := "execution" }
      (step3.1, .ok step1.2)

/-- The effective behavior of POST /api/execute-opportunity/:id at the HTTP
boundary: Express routes the request to the first registration. -/
def executeOpportunity (st : Store) (id : ℕ) (txHash : String) :
    Store × ExecuteOpportunityResult :=
  executeOpportunityFirst st id txHash

/-- The seeded demo opportunity with `isExecutable = false`
(storage initial data: id 3, Triangular, negative profit). -/
def c7Opp : Opportunity :=
  { id := 3, type := "Triangular", pairs := "ETH → USDT → DAI → ETH",
    estimatedProfitEth := -8/10000, estimatedGasCostEth := 45/10000, isExecutable := false }

/-- A store holding only the non-executable opportunity. -/
def c7Store : Store :=
  { opportunities := [c7Opp], transactions := [], mempoolActivity := [],
    nextOpportunityId := 5, nextTransactionId := 5, nextMempoolActivityId := 6 }

/-- C7 (code bug): executing the stored non-executable opportunity 3 through
the live route succeeds — it records a transaction and removes the opportunity
— because the first registration of the route lacks the `isExecutable` check
and shadows the second registration, which would return NotExecutable and
leave the store unchanged.  The NotFound half of the claim does hold (id 99). -/
theorem C7_shadowed_executable_check :
    (executeOpportunity c7Store 3 "0x7a8f...3e2d").2.isOk = true
    ∧ (executeOpportunity c7Store 3 "0x7a8f...3e2d").1.opportunities = []
    ∧ (executeOpportunity c7Store 3 "0x7a8f...3e2d").1.transactions.length = 1
    ∧ (executeOpportunitySecond c7Store 3 "0x7a8f...3e2d").2 =
        ExecuteOpportunityResult.notExecutable
    ∧ (executeOpportunitySecond c7Store 3 "0x7a8f...3e2d").1 = c7Store
    ∧ (executeOpportunity c7Store 99 "0x7a8f...3e2d").2 =
        ExecuteOpportunityResult.notFound :=
  ⟨rfl, rfl, rfl, rfl, rfl, rfl⟩

/-- The strategy types the generator draws from (src/server/routes.ts
lines 266 and 428). -/
def oppTypes : List String := ["Triangular", "DEX", "Flash Loan"]

/-- The trade-path descriptions the generator draws from (src/server/routes.ts
lines 267-274 and 429-436). -/
def oppPairs : List String :=
  ["ETH → USDC → WBTC → ETH", "ETH → DAI → USDT → ETH", "USDT(Uniswap) → USDT(SushiSwap)",
   "WBTC(Uniswap) → WBTC(Balancer)", "AAVE → Uniswap → Compound", "Maker → Curve → Aave → Maker"]

/-- `generateRandomOpportunity` (src/server/routes.ts lines 265-291),
parametrised by its `Math.random()` draws: `typeIdx`/`pairIdx` are the
`Math.floor(random * length)` indices and `profit`/`gasCost` the
drawn-and-rounded amounts (profit in [0.008, 0.045], gasCost in
[0.003, 0.016]).  The executable flag is the literal `isExecutable: true`. -/
def generateRandomOpportunity (typeIdx pairIdx : ℕ) (profit gasCost : ℚ) : InsertOpportunity :=
  { type := oppTypes.getD typeIdx "", pairs := oppPairs.getD pairIdx "",
    estimatedProfitEth := profit, estimatedGasCostEth := gasCost, isExecutable := true }

/-- One opportunity of the bulk POST /api/simulate/generate-opportunities route
(src/server/routes.ts lines 418-463): the same draws, but
`isExecutable: Math.random() > 0.3` — a fresh draw `r`, independent of profit
and cost. -/
def generateBulkOpportunity (typeIdx pairIdx : ℕ) (profit gasCost r : ℚ) : InsertOpportunity :=
  { type := oppTypes.getD typeIdx "", pairs := oppPairs.getD pairIdx "",
    estimatedProfitEth := profit, estimatedGasCostEth := gasCost,
    isExecutable := decide ((3 : ℚ)/10 < r) }

/-- C8 counterexample: the in-range draws profit = 0.008, gasCost = 0.016 give
a generated opportunity marked executable although its profit does not exceed
its gas cost; and a bulk draw r = 0.2 marks a clearly profitable opportunity
(0.045 vs 0.003) non-executable.  Both refute the claimed iff. -/
theorem C8_counterexample :
    (generateRandomOpportunity 0 0 (8/1000) (16/1000)).isExecutable = true
    ∧ ¬((generateRandomOpportunity 0 0 (8/1000) (16/1000)).estimatedProfitEth >
        (generateRandomOpportunity 0 0 (8/1000) (16/1000)).estimatedGasCostEth)
    ∧ (generateBulkOpportunity 0 0 (45/1000) (3/1000) (2/10)).isExecutable = false
    ∧ (generateBulkOpportunity 0 0 (45/1000) (3/1000) (2/10)).estimatedProfitEth >
        (generateBulkOpportunity 0 0 (45/1000) (3/1000) (2/10)).estimatedGasCostEth := by
  norm_num [generateRandomOpportunity, generateBulkOpportunity]

/-- C8 (amended): the generator does not implement the
profit-exceeds-gas-cost policy at all: `generateRandomOpportunity` marks every
opportunity executable regardless of the drawn profit and cost, and the bulk
route marks an opportunity executable iff its independent draw exceeds 0.3. -/
theorem C8_generator_flag (typeIdx pairIdx : ℕ) (profit gasCost r : ℚ) :
    (generateRandomOpportunity typeIdx pairIdx profit gasCost).isExecutable = true
    ∧ ((generateBulkOpportunity typeIdx pairIdx profit gasCost r).isExecutable = true ↔
        (3 : ℚ)/10 < r) := by
  refine ⟨rfl, ?_⟩
  simp [generateBulkOpportunity]

/-- The aggregate bot-statistics singleton (schema `botStats`), as far as the
loop touches it. -/
structure BotStats where
  totalProfitEth : ℚ
  totalTransactions : ℕ
  totalGasSpentEth : ℚ
  successRate : ℚ
deriving DecidableEq

/-- The fixed ETH→GBP conversion rate the loop uses
(src/server/routes.ts line 203). -/
def ethToGbpRate : ℚ := 2650

/-- Default generator output used when the pre-drawn stream runs dry. -/
def defaultGeneratedOpp : InsertOpportunity := generateRandomOpportunity 0 0 (8/1000) (3/1000)

/-- The world the background loop acts on: the manager singleton, the store,
the BotStats row, and the pre-drawn streams of generator outputs and random
transaction hashes. -/
structure World where
  manager : MevExecutionManager
  store : Store
  botStats : Option BotStats
  genOpps : List InsertOpportunity
  txHashes : List String
deriving DecidableEq

/-- The BotStats update performed when the target is reached
(src/server/routes.ts lines 234-245): add the run's profit converted back to
ETH, add the run's transaction count, set the success rate to 100; a missing
stats row is skipped. -/
def updateBotStatsOnFinish (bs : Option BotStats) (result : RecordResult) : Option BotStats :=
  match bs with
  | none => none
  | some cur =>
    some { cur with
      totalProfitEth := cur.totalProfitEth + result.currentProfit / ethToGbpRate,
      totalTransactions := cur.totalTransactions + result.transactions,
      successRate := 100 }

/-- One cycle of `executeOpportunitiesUntilTarget` (src/server/routes.ts lines
175-262).  Returns the updated world and whether the loop schedules another
cycle (the recursive self-invocation after the setTimeout delay; the delay
lengths do not affect state and are dropped).  The cycle: check `isRunning`
via `getStats` and terminate if false; filter executable opportunities; if any
exist, execute the best one — record a Confirmed transaction, `recordProfit`
with the transaction's profit converted at the fixed rate, delete the
opportunity, append a log line — then, if the target was not reached,
replenish one generated opportunity and continue, else update BotStats and do
not continue; with no executable opportunity, generate one and continue.
(`selectBestOpportunity` is exactly `executableOpps.sort(byNetDesc)[0]` of a
non-empty list; log text is carried opaquely, without the number rendering.) -/
def loopCycle (w : World) : World × Bool :=
  let stats := getStats w.manager
  if !stats.isRunning then (w, false)
  else
    let executableOpps := w.store.opportunities.filter (fun o => o.isExecutable)
    match selectBestOpportunity executableOpps with
    | some bestOpp =>
      let txHash := w.txHashes.headD "0x0000"
      let w1 : World := { w with txHashes := w.txHashes.tail }
      let added := addTransaction w1.store
        { txHash := txHash, type := bestOpp.type, pairs := bestOpp.pairs,
          profitEth := bestOpp.estimatedProfitEth, gasCostEth := bestOpp.estimatedGasCostEth,
          status := "Confirmed" }
      let profitGbp := added.2.profitEth * ethToGbpRate
      let recorded := recordProfit w1.manager profitGbp
      let st2 := (deleteOpportunity added.1 bestOpp.id).1
      let st3 := (addMempoolActivity st2
        { message := "Executed " ++ bestOpp.type ++ " arbitrage: " ++ bestOpp.pairs
            ++ " - Profit (GBP)", type := "execution" }).1
      let w2 : World := { w1 with manager := recorded.1, store := st3 }
      if !recorded.2.targetReached then
        let newOpp := w2.genOpps.headD defaultGeneratedOpp
        ({ w2 with genOpps := w2.genOpps.tail,
                   store := (addOpportunity w2.store newOpp).1 }, true)
      else
        ({ w2 with botStats := updateBotStatsOnFinish w2.botStats recorded.2 }, false)
    | none =>
      let newOpp := w.genOpps.headD defaultGeneratedOpp
      ({ w with genOpps := w.genOpps.tail,
                store := (addOpportunity w.store newOpp).1 }, true)

/-- The loop with explicit fuel: keep performing cycles while the previous
cycle scheduled another one. -/
def loopRun : ℕ → World → World
  | 0, w => w
  | fuel + 1, w =>
    let step := loopCycle w
    if step.2 then loopRun fuel step.1 else step.1

theorem loopCycle_of_stopped (w : World) (h : w.manager.isRunning = false) :
    loopCycle w = (w, false) := by
  simp [loopCycle, getStats, h]

theorem loopRun_of_stopped (fuel : ℕ) (w : World) (h : w.manager.isRunning = false) :
    loopRun fuel w = w := by
  cases fuel with
  | zero => rfl
  | succ m => simp [loopRun, loopCycle_of_stopped w h]

theorem loopCycle_stop_or_running (w : World) (h : w.manager.isRunning = true) :
    (loopCycle w).2 = false ∨ (loopCycle w).1.manager.isRunning = true := by
  simp only [loopCycle, getStats, h, Bool.not_true]
  split
  · rename_i hfalse
    exact absurd hfalse (by simp)
  · split
    · split
      · rename_i hnr
        right
        simp only [recordProfit_snd, Bool.not_eq_true', decide_eq_false_iff_not] at hnr
        simp only [recordProfit_fst]
        rw [if_neg hnr]
        exact h
      · left
        rfl
    · right
      simpa using h

/-- C9: the loop checks `isRunning` first in every cycle — on a stopped
coordinator a cycle returns immediately with no transaction recorded, no
opportunity removed and no further cycle scheduled, and an entire run with any
amount of fuel leaves the world untouched until a later successful start; and
whenever a cycle ends with `isRunning = false` (an observed stop, or the
target-reached transition inside `recordProfit`) the cycle does not schedule
another one. -/
theorem C9_loop_cooperative_stop (w : World) (fuel : ℕ) :
    (w.manager.isRunning = false → loopCycle w = (w, false) ∧ loopRun fuel w = w)
    ∧ ((loopCycle w).1.manager.isRunning = false → (loopCycle w).2 = false) := by
  refine ⟨fun h => ⟨loopCycle_of_stopped w h, loopRun_of_stopped fuel w h⟩, ?_⟩
  intro hpost
  cases hrun : w.manager.isRunning with
  | false =>
    rw [loopCycle_of_stopped w hrun]
  | true =>
    rcases loopCycle_stop_or_running w hrun with h2 | h2
    · exact h2
    · rw [hpost] at h2
      simp at h2

/-- A stopped coordinator over an empty store, witnessing C9. -/
def c9World : World :=
  { manager := initialManager,
    store := { opportunities := [], transactions := [], mempoolActivity := [],
               nextOpportunityId := 1, nextTransactionId := 1, nextMempoolActivityId := 1 },
    botStats := none, genOpps := [], txHashes := [] }

theorem C9_loop_cooperative_stop_witness :
    loopRun 5 c9World = c9World ∧ (loopCycle c9World).2 = false :=
  ⟨((C9_loop_cooperative_stop c9World 5).1 rfl).2,
   (C9_loop_cooperative_stop c9World 5).2 rfl⟩
